import Mathlib

/-!
Verification of the light_lock ambient-light jump detector
(src/light_lock.py) against its specification.

The per-tick detection logic is inlined in the source inside `run_headless`
(lines 38-59) and inside the `update` closure of `run_with_plot`
(lines 86-127).  We embed that logic shallowly: Python floats become exact
rationals (ℚ), the `collections.deque(maxlen=max(2, DERIV_WINDOW))` becomes a
list with an explicit capacity-dropping append, and the mutable loop state
`(deriv, last_t, last_y)` becomes an explicit `DetectorState` threaded through
a step function.  The sensor read and the sleep are external to the claims and
are abstracted by feeding an arbitrary list of `(t, y)` samples.

A second embedding over a small IEEE-style value type (finite / NaN / +inf /
-inf) is used for the claim about non-finite inputs, since exact rationals
cannot express NaN propagation.
-/

/-- Configuration constants of src/light_lock.py (lines 6-11): noise floor
`EPS`, jump threshold `JUMP_RATE`, window size `DERIV_WINDOW`.  The source
holds them as module-level globals; we pass them as an explicit record. -/
structure Config where
  EPS : ℚ
  JUMP_RATE : ℚ
  DERIV_WINDOW : ℕ

/-- Default values from the source: `JUMP_RATE = 1.0`, `DERIV_WINDOW = 6`,
`EPS = 1.0`. -/
def defaultConfig : Config := { EPS := 1, JUMP_RATE := 1, DERIV_WINDOW := 6 }

/-- Effective capacity of the derivative deque: the source constructs it as
`collections.deque(maxlen=max(2, DERIV_WINDOW))` (line 29 and line 77). -/
def capacity (c : Config) : ℕ := max 2 c.DERIV_WINDOW

/-- Append to a bounded deque: `deriv.append(x)` on a `deque` with `maxlen`
appends on the right and silently drops from the left when the capacity is
exceeded. -/
def dequeAppend {α : Type} (cap : ℕ) (w : List α) (d : α) : List α :=
  if cap < (w ++ [d]).length then (w ++ [d]).drop ((w ++ [d]).length - cap) else w ++ [d]

/-- Arithmetic mean, as `sum(deriv) / len(deriv)` in the source (line 48). -/
def mean (w : List ℚ) : ℚ := w.sum / w.length

/-- The Python builtin `abs` on a numeric value. -/
def pyabs (q : ℚ) : ℚ := if q < 0 then -q else q

/-- The Python builtin two-argument `max(a, b)`: returns `b` when `b > a`, else
`a`. -/
def pymaxQ (a b : ℚ) : ℚ := if a < b then b else a

lemma pyabs_eq_abs (q : ℚ) : pyabs q = |q| := by
  unfold pyabs
  rcases lt_or_le q 0 with h | h
  · rw [if_pos h, abs_of_neg h]
  · rw [if_neg (not_lt.mpr h), abs_of_nonneg h]

lemma pymaxQ_eq_max (a b : ℚ) : pymaxQ a b = max a b := by
  unfold pymaxQ
  rcases lt_trichotomy a b with h | h | h
  · rw [if_pos h, max_eq_right h.le]
  · subst h
    rw [if_neg (lt_irrefl a), max_self]
  · rw [if_neg (not_lt.mpr h.le), max_eq_left h.le]

/-- Detector state threaded through the loop of `run_headless`: the derivative
window `deriv` (oldest first) and the optional previous sample
`last = (last_t, last_y)`; `none` models `last_t = last_y = None`. -/
structure DetectorState where
  deriv : List ℚ
  last : Option (ℚ × ℚ)

/-- Fresh detector state: empty window, no previous sample (lines 29-30). -/
def DetectorState.init : DetectorState := ⟨[], none⟩

/-- One loop-body tick of `run_headless` (lines 41-53) on sample `(t, y)`:
returns the next state, the `is_jump` verdict, and the smoothed rate when one
was computed this tick (`none` when the branch that computes `rate` was not
taken).  Mirrors the source exactly: if a previous sample exists,
`dt = max(1e-6, t - last_t)`, `dy = y - last_y`; when `abs(dy) >= EPS` the
derivative `dy/dt` is appended to the deque, `rate = sum(deriv)/len(deriv)` and
`is_jump = abs(rate) >= JUMP_RATE`; in every case `last_t, last_y = t, y`. -/
def step (c : Config) : DetectorState → ℚ → ℚ → DetectorState × Bool × Option ℚ
  | ⟨w, none⟩, t, y => (⟨w, some (t, y)⟩, false, none)
  | ⟨w, some (lt, ly)⟩, t, y =>
      let dt := pymaxQ (1 / 1000000) (t - lt)
      let dy := y - ly
      if c.EPS ≤ pyabs dy then
        let w2 := dequeAppend (capacity c) w (dy / dt)
        let rate := mean w2
        (⟨w2, some (t, y)⟩, decide (c.JUMP_RATE ≤ pyabs rate), some rate)
      else
        (⟨w, some (t, y)⟩, false, none)

/-- Run the detector over a list of samples, collecting the per-tick
`(is_jump, rate)` outputs in order. -/
def run (c : Config) : DetectorState → List (ℚ × ℚ) → DetectorState × List (Bool × Option ℚ)
  | s, [] => (s, [])
  | s, (t, y) :: rest =>
      let r := step c s t y
      let rr := run c r.1 rest
      (rr.1, r.2 :: rr.2)

/-- One tick of the `update` closure in `run_with_plot` (lines 86-103),
restricted to its detection logic (the `xs`/`ys` plotting buffers and axis
bookkeeping are presentation-only and touch neither the verdict nor the rate).
The sole difference from `run_headless` is `t = time.monotonic() - t0`
(line 89): the monotonic reading `m` is shifted by the constant start time
`t0` before being used. -/
def plotStep (c : Config) (t0 : ℚ) : DetectorState → ℚ → ℚ → DetectorState × Bool × Option ℚ
  | ⟨w, none⟩, m, y => (⟨w, some (m - t0, y)⟩, false, none)
  | ⟨w, some (lt, ly)⟩, m, y =>
      let t := m - t0
      let dt := pymaxQ (1 / 1000000) (t - lt)
      let dy := y - ly
      if c.EPS ≤ pyabs dy then
        let w2 := dequeAppend (capacity c) w (dy / dt)
        let rate := mean w2
        (⟨w2, some (t, y)⟩, decide (c.JUMP_RATE ≤ pyabs rate), some rate)
      else
        (⟨w, some (t, y)⟩, false, none)

/-- Run the plot-path detection logic over the same raw monotonic samples. -/
def plotRun (c : Config) (t0 : ℚ) : DetectorState → List (ℚ × ℚ) → DetectorState × List (Bool × Option ℚ)
  | s, [] => (s, [])
  | s, (m, y) :: rest =>
      let r := plotStep c t0 s m y
      let rr := plotRun c t0 r.1 rest
      (rr.1, r.2 :: rr.2)

/-- Sample stream built from a list of per-step `(dt, dy)` increments,
starting one step after `(t, y)`. -/
def stepsFrom : ℚ → ℚ → List (ℚ × ℚ) → List (ℚ × ℚ)
  | _, _, [] => []
  | t, y, (dt, dy) :: rest => (t + dt, y + dy) :: stepsFrom (t + dt) (y + dy) rest

-- Basic facts about the bounded append.

lemma dequeAppend_length {α : Type} (cap : ℕ) (w : List α) (d : α) :
    (dequeAppend cap w d).length = min (w.length + 1) cap := by
  unfold dequeAppend
  by_cases h : cap < (w ++ [d]).length
  · rw [if_pos h, List.length_drop]
    simp only [List.length_append, List.length_singleton] at h ⊢
    omega
  · rw [if_neg h]
    simp only [List.length_append, List.length_singleton] at h ⊢
    omega

lemma dequeAppend_le_cap {α : Type} (cap : ℕ) (w : List α) (d : α) :
    (dequeAppend cap w d).length ≤ cap := by
  rw [dequeAppend_length]
  omega

lemma capacity_pos (c : Config) : 2 ≤ capacity c := le_max_left _ _

lemma dequeAppend_replicate (cap m : ℕ) (r : ℚ) :
    dequeAppend cap (List.replicate m r) r = List.replicate (min (m + 1) cap) r := by
  unfold dequeAppend
  have h1 : List.replicate m r ++ [r] = List.replicate (m + 1) r := by
    rw [← List.replicate_succ']
  rw [h1, List.length_replicate]
  by_cases h : cap < m + 1
  · rw [if_pos h, List.drop_replicate]
    congr 1
    omega
  · rw [if_neg h]
    congr 1
    omega

lemma dequeAppend_nonempty {α : Type} (cap : ℕ) (hcap : 1 ≤ cap) (w : List α) (d : α) :
    1 ≤ (dequeAppend cap w d).length := by
  rw [dequeAppend_length]
  omega

lemma mean_replicate (m : ℕ) (r : ℚ) (h : 1 ≤ m) : mean (List.replicate m r) = r := by
  unfold mean
  rw [List.sum_replicate, List.length_replicate, nsmul_eq_mul]
  have hm : (m : ℚ) ≠ 0 := Nat.cast_ne_zero.mpr (by omega)
  field_simp

/-- Windows stay within capacity along any run. -/
lemma run_window_le (c : Config) (samples : List (ℚ × ℚ)) :
    ∀ s : DetectorState, s.deriv.length ≤ capacity c →
      (run c s samples).1.deriv.length ≤ capacity c := by
  induction samples with
  | nil => intro s h; exact h
  | cons p rest ih =>
    obtain ⟨t, y⟩ := p
    intro s h
    simp only [run]
    apply ih
    obtain ⟨w, last⟩ := s
    cases last with
    | none => simpa [step] using h
    | some q =>
      obtain ⟨lt, ly⟩ := q
      by_cases hq : c.EPS ≤ pyabs (y - ly)
      · simp only [step]
        rw [if_pos hq]
        exact dequeAppend_le_cap _ _ _
      · simp only [step]
        rw [if_neg hq]
        simpa using h

/-- C6: on a fresh detector (no prior sample recorded) the first sample
`(t0, y0)` yields `is_jump = false` with no rate (`none`), appends nothing to
the derivative window, and records `(t0, y0)` as the reference point. -/
theorem C6_first_sample (c : Config) (t y : ℚ) :
    step c DetectorState.init t y = (⟨[], some (t, y)⟩, false, none) := rfl

/-- C1: on every qualifying update (prior sample recorded and
`abs(y - last_y) >= EPS`) the instantaneous derivative `dy/dt` is appended to
the window with oldest-entry eviction at capacity, and the verdict is
`is_jump = true` iff `abs(mean window) >= JUMP_RATE` (inclusive), a function of
the resulting window contents alone — no previous verdict enters the state, so
it re-fires on every qualifying tick while the condition holds. -/
theorem C1_qualifying_step (c : Config) (w : List ℚ) (lt ly t y : ℚ)
    (hq : c.EPS ≤ |y - ly|) :
    step c ⟨w, some (lt, ly)⟩ t y =
      (⟨dequeAppend (capacity c) w ((y - ly) / pymaxQ (1 / 1000000) (t - lt)), some (t, y)⟩,
        decide (c.JUMP_RATE ≤
          |mean (dequeAppend (capacity c) w ((y - ly) / pymaxQ (1 / 1000000) (t - lt)))|),
        some (mean (dequeAppend (capacity c) w ((y - ly) / pymaxQ (1 / 1000000) (t - lt))))) ∧
    ((step c ⟨w, some (lt, ly)⟩ t y).2.1 = true ↔
      c.JUMP_RATE ≤
        |mean (dequeAppend (capacity c) w ((y - ly) / pymaxQ (1 / 1000000) (t - lt)))|) := by
  have h1 : step c ⟨w, some (lt, ly)⟩ t y =
      (⟨dequeAppend (capacity c) w ((y - ly) / pymaxQ (1 / 1000000) (t - lt)), some (t, y)⟩,
        decide (c.JUMP_RATE ≤
          |mean (dequeAppend (capacity c) w ((y - ly) / pymaxQ (1 / 1000000) (t - lt)))|),
        some (mean (dequeAppend (capacity c) w ((y - ly) / pymaxQ (1 / 1000000) (t - lt))))) := by
    simp only [step, pyabs_eq_abs]
    rw [if_pos hq]
  refine ⟨h1, ?_⟩
  rw [h1]
  exact decide_eq_true_iff

/-- Witness for C1 at Scenario B of the spec: samples `(0, 100)` then
`(1/25, 50)` give derivative `-1250`, mean `-1250`, and a jump. -/
theorem C1_qualifying_step_witness :
    defaultConfig.EPS ≤ |(50 : ℚ) - 100| ∧
    (step defaultConfig ⟨[], some (0, 100)⟩ (1 / 25) 50 =
      (⟨dequeAppend (capacity defaultConfig) []
          (((50 : ℚ) - 100) / pymaxQ (1 / 1000000) (1 / 25 - 0)), some (1 / 25, 50)⟩,
        decide (defaultConfig.JUMP_RATE ≤
          |mean (dequeAppend (capacity defaultConfig) []
            (((50 : ℚ) - 100) / pymaxQ (1 / 1000000) (1 / 25 - 0)))|),
        some (mean (dequeAppend (capacity defaultConfig) []
          (((50 : ℚ) - 100) / pymaxQ (1 / 1000000) (1 / 25 - 0))))) ∧
    ((step defaultConfig ⟨[], some (0, 100)⟩ (1 / 25) 50).2.1 = true ↔
      defaultConfig.JUMP_RATE ≤
        |mean (dequeAppend (capacity defaultConfig) []
          (((50 : ℚ) - 100) / pymaxQ (1 / 1000000) (1 / 25 - 0)))|)) :=
  ⟨by norm_num [defaultConfig],
   C1_qualifying_step defaultConfig [] 0 100 (1 / 25) 50 (by norm_num [defaultConfig])⟩

/-- C9: on every sub-noise-floor update (prior sample present and
`abs(y - last_y) < EPS`) the window is left completely unchanged, `last_t` and
`last_y` are nevertheless updated to the new sample, and no jump is signaled. -/
theorem C9_subnoise_step (c : Config) (w : List ℚ) (lt ly t y : ℚ)
    (h : |y - ly| < c.EPS) :
    step c ⟨w, some (lt, ly)⟩ t y = (⟨w, some (t, y)⟩, false, none) := by
  simp only [step, pyabs_eq_abs]
  rw [if_neg (not_le.mpr h)]

/-- Witness for C9 at Scenario A of the spec: samples `(0, 100)` then
`(1/25, 100.2)` — the step `0.2` is below `EPS = 1`, so no append and no jump. -/
theorem C9_subnoise_step_witness :
    |(501 / 5 : ℚ) - 100| < defaultConfig.EPS ∧
    step defaultConfig ⟨[], some (0, 100)⟩ (1 / 25) (501 / 5) =
      (⟨[], some (1 / 25, 501 / 5)⟩, false, none) :=
  ⟨by rw [show ((501 / 5 : ℚ) - 100) = 1 / 5 by norm_num,
        abs_of_nonneg (by norm_num : (0 : ℚ) ≤ 1 / 5)]
      norm_num [defaultConfig],
   C9_subnoise_step defaultConfig [] 0 100 (1 / 25) (501 / 5)
    (by rw [show ((501 / 5 : ℚ) - 100) = 1 / 5 by norm_num,
          abs_of_nonneg (by norm_num : (0 : ℚ) ≤ 1 / 5)]
        norm_num [defaultConfig])⟩

/-- C7: for every pair of finite inputs, including decreasing or repeated
timestamps, the clamped interval `dt = max(1e-6, t - last_t)` is positive (so
the derivative division never divides by zero or a non-positive interval), the
window the mean is taken over is non-empty (the append precedes the division by
the length), and the rate the update reports, when present, is exactly that
mean. -/
theorem C7_no_division_hazard (c : Config) (w : List ℚ) (lt ly t y : ℚ) :
    0 < pymaxQ ((1 : ℚ) / 1000000) (t - lt) ∧
    (1 : ℚ) / 1000000 ≤ pymaxQ ((1 : ℚ) / 1000000) (t - lt) ∧
    1 ≤ (dequeAppend (capacity c) w ((y - ly) / pymaxQ ((1 : ℚ) / 1000000) (t - lt))).length ∧
    ((step c ⟨w, some (lt, ly)⟩ t y).2.2 = none ∨
      (step c ⟨w, some (lt, ly)⟩ t y).2.2 =
        some (mean (dequeAppend (capacity c) w ((y - ly) / pymaxQ ((1 : ℚ) / 1000000) (t - lt))))) := by
  refine ⟨?_, ?_, dequeAppend_nonempty _ (le_trans (by norm_num) (capacity_pos c)) _ _, ?_⟩
  · rw [pymaxQ_eq_max]
    exact lt_of_lt_of_le (by norm_num) (le_max_left _ _)
  · rw [pymaxQ_eq_max]
    exact le_max_left _ _
  · by_cases hq : c.EPS ≤ |y - ly|
    · right
      simp only [step, pyabs_eq_abs]
      rw [if_pos hq]
    · left
      simp only [step, pyabs_eq_abs]
      rw [if_neg hq]

/-- Configuration with `DERIV_WINDOW = 1`, exposing the `max(2, DERIV_WINDOW)`
floor the source puts on the deque capacity. -/
def smallConfig : Config := { EPS := 1, JUMP_RATE := 1, DERIV_WINDOW := 1 }

/-- C2 counterexample: with `DERIV_WINDOW = 1` the deque is built with
`maxlen = max(2, 1) = 2`, so after two qualifying updates the window holds
2 > `DERIV_WINDOW` entries. -/
theorem C2_counterexample :
    smallConfig.DERIV_WINDOW <
      (run smallConfig DetectorState.init [(0, 0), (1, 10), (2, 20)]).1.deriv.length := by
  norm_num [run, step, dequeAppend, capacity, mean, pyabs, pymaxQ, smallConfig,
    DetectorState.init]

/-- C2 amended: after any number of updates from a fresh detector the window
never holds more than `max(2, DERIV_WINDOW)` entries; in particular, whenever
`DERIV_WINDOW >= 2` (the default is 6) it never holds more than `DERIV_WINDOW`
entries. -/
theorem C2_window_bound (c : Config) (samples : List (ℚ × ℚ)) :
    (run c DetectorState.init samples).1.deriv.length ≤ capacity c ∧
    (2 ≤ c.DERIV_WINDOW →
      (run c DetectorState.init samples).1.deriv.length ≤ c.DERIV_WINDOW) := by
  have h := run_window_le c samples DetectorState.init (by simp [DetectorState.init])
  exact ⟨h, fun h2 => le_trans h (le_of_eq (max_eq_right h2))⟩

/-- Runs over a stream whose steps all have derivative `r` keep the window
filled with `r` and emit the same verdict on every tick. -/
lemma run_const (c : Config) (r : ℚ) :
    ∀ (incs : List (ℚ × ℚ)) (t y : ℚ) (m : ℕ), m ≤ capacity c →
      (∀ p ∈ incs, 1 / 1000000 ≤ p.1 ∧ c.EPS ≤ |p.2| ∧ p.2 / p.1 = r) →
      ((run c ⟨List.replicate m r, some (t, y)⟩ (stepsFrom t y incs)).2 =
        List.replicate incs.length (decide (c.JUMP_RATE ≤ |r|), some r)) ∧
      ∃ q, (run c ⟨List.replicate m r, some (t, y)⟩ (stepsFrom t y incs)).1 =
        ⟨List.replicate (min (m + incs.length) (capacity c)) r, some q⟩ := by
  intro incs
  induction incs with
  | nil =>
    intro t y m hm
    intro _
    refine ⟨by simp [stepsFrom, run], ⟨(t, y), ?_⟩⟩
    simp [stepsFrom, run, min_eq_left hm]
  | cons p rest ih =>
    obtain ⟨dt, dy⟩ := p
    intro t y m hm hincs
    obtain ⟨hdt, hdy, hr⟩ := hincs (dt, dy) (List.mem_cons_self _ _)
    have hm1 : 1 ≤ min (m + 1) (capacity c) := by
      have := capacity_pos c
      omega
    have hstep : step c ⟨List.replicate m r, some (t, y)⟩ (t + dt) (y + dy) =
        (⟨List.replicate (min (m + 1) (capacity c)) r, some (t + dt, y + dy)⟩,
          decide (c.JUMP_RATE ≤ |r|), some r) := by
      simp only [step, pyabs_eq_abs, add_sub_cancel_left]
      rw [pymaxQ_eq_max, max_eq_right hdt, if_pos hdy, hr, dequeAppend_replicate,
        mean_replicate _ _ hm1]
    have hrest : ∀ p ∈ rest, 1 / 1000000 ≤ p.1 ∧ c.EPS ≤ |p.2| ∧ p.2 / p.1 = r :=
      fun p hp => hincs p (List.mem_cons_of_mem _ hp)
    obtain ⟨ihout, q, ihstate⟩ :=
      ih (t + dt) (y + dy) (min (m + 1) (capacity c)) (min_le_right _ _) hrest
    have hmin : min (min (m + 1) (capacity c) + rest.length) (capacity c) =
        min (m + (rest.length + 1)) (capacity c) := by omega
    refine ⟨?_, ⟨q, ?_⟩⟩
    · simp only [stepsFrom, run, hstep, ihout, List.length_cons, List.replicate_succ]
    · simp only [stepsFrom, run, hstep, ihstate, List.length_cons, hmin]

/-- C4: for a stream of qualifying samples each contributing the same constant
instantaneous derivative `r` (arbitrary per-step spacing `dt >= 1e-6` and
increment `dy` with `abs(dy) >= EPS` and `dy/dt = r`), the detector reports
`is_jump = (abs r >= JUMP_RATE)` already on the first qualifying sample (the
window need not be full) and on every subsequent qualifying sample while `r`
persists; in particular when `abs r < JUMP_RATE` it never reports a jump. -/
theorem C4_constant_rate (c : Config) (t0 y0 r : ℚ) (incs : List (ℚ × ℚ))
    (hincs : ∀ p ∈ incs, 1 / 1000000 ≤ p.1 ∧ c.EPS ≤ |p.2| ∧ p.2 / p.1 = r) :
    (run c DetectorState.init ((t0, y0) :: stepsFrom t0 y0 incs)).2 =
      (false, none) ::
        List.replicate incs.length (decide (c.JUMP_RATE ≤ |r|), some r) := by
  simp only [run, DetectorState.init, step]
  rw [show ([] : List ℚ) = List.replicate 0 r from rfl]
  rw [(run_const c r incs t0 y0 0 (by omega) hincs).1]

/-- Witness for C4 at Scenario C of the spec: derivative `+2` sustained for six
qualifying samples with the default thresholds fires on every tick from the
first qualifying sample onward. -/
theorem C4_constant_rate_witness :
    (∀ p ∈ List.replicate 6 ((1 : ℚ), (2 : ℚ)),
      1 / 1000000 ≤ p.1 ∧ defaultConfig.EPS ≤ |p.2| ∧ p.2 / p.1 = 2) ∧
    (run defaultConfig DetectorState.init
        ((0, 100) :: stepsFrom 0 100 (List.replicate 6 ((1 : ℚ), (2 : ℚ))))).2 =
      (false, none) ::
        List.replicate (List.replicate 6 ((1 : ℚ), (2 : ℚ))).length
          (decide (defaultConfig.JUMP_RATE ≤ |(2 : ℚ)|), some (2 : ℚ)) := by
  have h : ∀ p ∈ List.replicate 6 ((1 : ℚ), (2 : ℚ)),
      1 / 1000000 ≤ p.1 ∧ defaultConfig.EPS ≤ |p.2| ∧ p.2 / p.1 = 2 := by
    intro p hp
    rw [List.eq_of_mem_replicate hp]
    refine ⟨by norm_num, ?_, by norm_num⟩
    rw [abs_of_nonneg (by norm_num : (0 : ℚ) ≤ 2)]
    norm_num [defaultConfig]
  exact ⟨h, C4_constant_rate defaultConfig 0 100 2 (List.replicate 6 ((1 : ℚ), (2 : ℚ))) h⟩

/-- Sub-noise runs never signal a jump and never touch the window. -/
lemma run_subnoise (c : Config) (samples : List (ℚ × ℚ)) :
    ∀ (t y : ℚ) (w : List ℚ),
      List.Chain (fun p q : ℚ × ℚ => |q.2 - p.2| < c.EPS) (t, y) samples →
      ∀ o ∈ (run c ⟨w, some (t, y)⟩ samples).2, o.1 = false := by
  induction samples with
  | nil =>
    intro t y w _ o ho
    simp [run] at ho
  | cons p rest ih =>
    obtain ⟨t2, y2⟩ := p
    intro t y w hch o ho
    rcases List.chain_cons.mp hch with ⟨hr, hch2⟩
    have hstep : step c ⟨w, some (t, y)⟩ t2 y2 = (⟨w, some (t2, y2)⟩, false, none) := by
      simp only [step, pyabs_eq_abs]
      rw [if_neg (not_le.mpr hr)]
    simp only [run, hstep] at ho
    rcases List.mem_cons.mp ho with h1 | h1
    · rw [h1]
    · exact ih t2 y2 w hch2 o h1

/-- C5: for any sequence of samples in which every consecutive step satisfies
`abs(y_i - y_{i-1}) < EPS`, no update call ever returns `is_jump = true`,
regardless of the length of the sequence or the size of the cumulative
change. -/
theorem C5_noise_floor (c : Config) (samples : List (ℚ × ℚ))
    (h : List.Chain' (fun p q : ℚ × ℚ => |q.2 - p.2| < c.EPS) samples) :
    ∀ o ∈ (run c DetectorState.init samples).2, o.1 = false := by
  cases samples with
  | nil =>
    intro o ho
    simp [run] at ho
  | cons p rest =>
    obtain ⟨t, y⟩ := p
    intro o ho
    simp only [run, DetectorState.init, step] at ho
    rcases List.mem_cons.mp ho with h1 | h1
    · rw [h1]
    · exact run_subnoise c rest t y [] h o h1

/-- Witness for C5 at Scenario A of the spec: the step from 100 to 100.2 is
below the noise floor, so neither call jumps. -/
theorem C5_noise_floor_witness :
    List.Chain' (fun p q : ℚ × ℚ => |q.2 - p.2| < defaultConfig.EPS)
      [(0, 100), (1 / 25, 501 / 5)] ∧
    ∀ o ∈ (run defaultConfig DetectorState.init [(0, 100), (1 / 25, 501 / 5)]).2,
      o.1 = false := by
  have hr : |(501 / 5 : ℚ) - 100| < defaultConfig.EPS := by
    rw [show ((501 / 5 : ℚ) - 100) = 1 / 5 by norm_num,
      abs_of_nonneg (by norm_num : (0 : ℚ) ≤ 1 / 5)]
    norm_num [defaultConfig]
  have hch : List.Chain' (fun p q : ℚ × ℚ => |q.2 - p.2| < defaultConfig.EPS)
      [(0, 100), (1 / 25, 501 / 5)] := List.Chain.cons hr List.Chain.nil
  exact ⟨hch, C5_noise_floor defaultConfig [(0, 100), (1 / 25, 501 / 5)] hch⟩

/-- Relates a plot-path state to a headless state whose `last_t` is shifted by
the constant start time `t0`: both paths then produce identical outputs. -/
lemma plot_run_eq (c : Config) (t0 : ℚ) (samples : List (ℚ × ℚ)) :
    ∀ (w : List ℚ) (p : Option (ℚ × ℚ)),
      (plotRun c t0 ⟨w, Option.map (fun q => (q.1 - t0, q.2)) p⟩ samples).2 =
        (run c ⟨w, p⟩ samples).2 := by
  induction samples with
  | nil =>
    intro w p
    simp [plotRun, run]
  | cons s rest ih =>
    obtain ⟨m, y⟩ := s
    intro w p
    cases p with
    | none =>
      simp only [Option.map_none', plotRun, run, plotStep, step]
      have h := ih w (some (m, y))
      simp only [Option.map_some'] at h
      rw [h]
    | some q =>
      obtain ⟨lt, ly⟩ := q
      simp only [Option.map_some', plotRun, run, plotStep, step]
      have hdt : (m - t0) - (lt - t0) = m - lt := by ring
      rw [hdt]
      by_cases hq : c.EPS ≤ pyabs (y - ly)
      · rw [if_pos hq, if_pos hq]
        have h := ih (dequeAppend (capacity c) w ((y - ly) / pymaxQ (1 / 1000000) (m - lt)))
          (some (m, y))
        simp only [Option.map_some'] at h
        rw [h]
      · rw [if_neg hq, if_neg hq]
        have h := ih w (some (m, y))
        simp only [Option.map_some'] at h
        rw [h]

/-- C10: fed the same sequence of raw monotonic `(timestamp, lux)` samples, the
detection logic duplicated in `run_headless` and in the `update` closure of
`run_with_plot` produces identical `is_jump` verdicts and identical smoothed
rates on every tick: the subtraction that the plot path makes of the constant start time
`t0` from every timestamp affects no `dt`, derivative, or verdict. -/
theorem C10_plot_headless_equiv (c : Config) (t0 : ℚ) (samples : List (ℚ × ℚ)) :
    (plotRun c t0 DetectorState.init samples).2 =
      (run c DetectorState.init samples).2 := by
  have h := plot_run_eq c t0 samples [] none
  simpa [DetectorState.init] using h

/-- Result of one invocation of `do_lockscreen` (lines 13-18):
`subprocess.run(["pmset", "displaysleepnow"], check=False)` is attempted exactly
once inside `try`; an exception is caught and printed to stderr, never
re-raised and never retried; the final `sys.exit(0)` sits outside the `try`
block, so it runs on every path.  `pmsetRaises` abstracts whether the
subprocess call raised. -/
structure LockResult where
  attempts : ℕ
  loggedError : Bool
  exitCode : ℕ

/-- Embedding of `do_lockscreen`. -/
def do_lockscreen (pmsetRaises : Bool) : LockResult :=
  { attempts := 1, loggedError := pmsetRaises, exitCode := 0 }

/-- Outcome of the trigger dispatch at the bottom of the loop body (lines
55-57 of `run_headless`, mirrored at lines 122-124): when
`LOCKSCREEN_ON_JUMP and is_jump` the loop calls `do_lockscreen`, which
terminates the process with its exit code; otherwise the loop continues. -/
inductive LoopOutcome
  | continues
  | exits (code : ℕ)

/-- Embedding of the `if LOCKSCREEN_ON_JUMP and is_jump:` tail of the loop
body. -/
def loopExitCheck (lockOnJump is_jump pmsetRaises : Bool) : LoopOutcome :=
  if lockOnJump && is_jump then LoopOutcome.exits (do_lockscreen pmsetRaises).exitCode
  else LoopOutcome.continues

/-- C8: when the jump-trigger configuration is enabled and an update returns
`is_jump = true`, the trigger action is invoked (exactly once, never retried)
and the loop terminates with exit code 0 — also when the trigger action itself
fails, in which case the failure is logged and the exit path is unchanged. -/
theorem C8_trigger_exit (pmsetRaises : Bool) :
    loopExitCheck true true pmsetRaises = LoopOutcome.exits 0 ∧
    (do_lockscreen pmsetRaises).attempts = 1 ∧
    (do_lockscreen pmsetRaises).exitCode = 0 ∧
    (do_lockscreen true).loggedError = true :=
  ⟨rfl, rfl, rfl, rfl⟩

/-- Python float value for the non-finite-input analysis: a finite rational,
NaN, +inf, or -inf.  Exact rationals cannot express the special values, and
the source code performs no finiteness check, so its behavior on non-finite
input is fixed by the IEEE-754 semantics of the operators it uses. -/
inductive F
  | fin (q : ℚ)
  | nan
  | inf
  | ninf
deriving DecidableEq

/-- IEEE subtraction on Python floats: NaN propagates; same-signed infinities
cancel to NaN; an infinity minus a finite value keeps its sign. -/
def fsub : F → F → F
  | F.nan, _ => F.nan
  | _, F.nan => F.nan
  | F.inf, F.inf => F.nan
  | F.inf, _ => F.inf
  | F.ninf, F.ninf => F.nan
  | F.ninf, _ => F.ninf
  | F.fin _, F.inf => F.ninf
  | F.fin _, F.ninf => F.inf
  | F.fin a, F.fin b => F.fin (a - b)

/-- IEEE addition on Python floats (used by `sum(deriv)`). -/
def fadd : F → F → F
  | F.nan, _ => F.nan
  | _, F.nan => F.nan
  | F.inf, F.ninf => F.nan
  | F.ninf, F.inf => F.nan
  | F.inf, _ => F.inf
  | _, F.inf => F.inf
  | F.ninf, _ => F.ninf
  | _, F.ninf => F.ninf
  | F.fin a, F.fin b => F.fin (a + b)

/-- The Python builtin `abs` under IEEE semantics: `abs(nan) = nan`. -/
def fabs : F → F
  | F.nan => F.nan
  | F.inf => F.inf
  | F.ninf => F.inf
  | F.fin a => F.fin (if a < 0 then -a else a)

/-- IEEE `>=`: every comparison involving NaN is false. -/
def fge : F → F → Bool
  | F.nan, _ => false
  | _, F.nan => false
  | F.inf, _ => true
  | _, F.inf => false
  | F.ninf, F.ninf => true
  | F.ninf, _ => false
  | _, F.ninf => true
  | F.fin a, F.fin b => decide (b ≤ a)

/-- IEEE `>`: every comparison involving NaN is false. -/
def fgt : F → F → Bool
  | F.nan, _ => false
  | _, F.nan => false
  | F.inf, F.inf => false
  | F.inf, _ => true
  | _, F.inf => false
  | F.ninf, _ => false
  | F.fin _, F.ninf => true
  | F.fin a, F.fin b => decide (b < a)

/-- The Python builtin two-argument `max(a, b)`: returns `b` when `b > a`, else
the first argument `a`; in particular `max(x, nan) = x`. -/
def pymaxF (a b : F) : F := if fgt b a then b else a

/-- IEEE division, as far as the detector can reach it: the divisor is the
clamped `dt`, which is never 0.0, so the Python `ZeroDivisionError` on division
by exactly zero is unreachable (the zero-divisor row is given its IEEE value
for totality). -/
def fdiv : F → F → F
  | F.nan, _ => F.nan
  | _, F.nan => F.nan
  | F.inf, F.inf => F.nan
  | F.inf, F.ninf => F.nan
  | F.ninf, F.inf => F.nan
  | F.ninf, F.ninf => F.nan
  | F.inf, F.fin b => if b < 0 then F.ninf else F.inf
  | F.ninf, F.fin b => if b < 0 then F.inf else F.ninf
  | F.fin _, F.inf => F.fin 0
  | F.fin _, F.ninf => F.fin 0
  | F.fin a, F.fin b =>
      if b = 0 then (if a = 0 then F.nan else if a < 0 then F.ninf else F.inf)
      else F.fin (a / b)

/-- Left fold of IEEE addition, as `sum(deriv)` in Python (starts from 0). -/
def fsum (w : List F) : F := w.foldl fadd (F.fin 0)

/-- Detector state over Python float values. -/
structure DetectorStateF where
  deriv : List F
  last : Option (F × F)

/-- The loop body of `run_headless` (lines 41-53) over Python float values,
with the operators of the source given their IEEE semantics: the code performs no
finiteness check anywhere, so non-finite `t` or `y` flow through `dt`, `dy`,
the `abs(dy) >= EPS` comparison, and the window exactly as IEEE prescribes. -/
def stepF (c : Config) : DetectorStateF → F → F → DetectorStateF × Bool × Option F
  | ⟨w, none⟩, t, y => (⟨w, some (t, y)⟩, false, none)
  | ⟨w, some (lt, ly)⟩, t, y =>
      let dt := pymaxF (F.fin (1 / 1000000)) (fsub t lt)
      let dy := fsub y ly
      if fge (fabs dy) (F.fin c.EPS) then
        let w2 := dequeAppend (capacity c) w (fdiv dy dt)
        let rate := fdiv (fsum w2) (F.fin w2.length)
        (⟨w2, some (t, y)⟩, fge (fabs rate) (F.fin c.JUMP_RATE), some rate)
      else
        (⟨w, some (t, y)⟩, false, none)

/-- C3 counterexample: on the default configuration, a detector with prior
sample `(0.0, 100.0)` fed the non-finite value `y = +inf` at `t = 1.0` has its
state mutated: `dy = inf` passes `abs(dy) >= EPS`, the derivative `inf` is
appended to the window, and `last_t, last_y` become `(1.0, inf)` — refuting
the claim that the sample is rejected with the window, `last_t` and `last_y`
left unchanged. -/
theorem C3_counterexample :
    (stepF defaultConfig ⟨[], some (F.fin 0, F.fin 100)⟩ (F.fin 1) F.inf).1.deriv ≠
      ([] : List F) ∧
    (stepF defaultConfig ⟨[], some (F.fin 0, F.fin 100)⟩ (F.fin 1) F.inf).1.last ≠
      some (F.fin 0, F.fin 100) := by
  have h : stepF defaultConfig ⟨[], some (F.fin 0, F.fin 100)⟩ (F.fin 1) F.inf =
      (⟨[F.inf], some (F.fin 1, F.inf)⟩, true, some F.inf) := by
    norm_num [stepF, fsub, fabs, fge, fgt, pymaxF, fdiv, fsum, fadd, dequeAppend,
      capacity, defaultConfig, decide_eq_true_eq]
  rw [h]
  exact ⟨by simp, by simp⟩

/-- C3 amended: a non-finite timestamp or value is not rejected and the
detector state is mutated: `last_t, last_y` are always set to the incoming
sample, finite or not; a NaN value appends nothing to the window (every IEEE
comparison involving NaN is false, so the `abs(dy) >= EPS` test fails), while
a `+inf` value after a finite prior sample passes the test and appends the
non-finite derivative `inf` to the window. -/
theorem C3_not_rejected :
    (∀ (c : Config) (w : List F) (p : Option (F × F)) (t y : F),
      (stepF c ⟨w, p⟩ t y).1.last = some (t, y)) ∧
    (∀ (c : Config) (w : List F) (lt ly t : F),
      (stepF c ⟨w, some (lt, ly)⟩ t F.nan).1.deriv = w) ∧
    (∀ (c : Config) (w : List F) (b q a : ℚ),
      (stepF c ⟨w, some (F.fin b, F.fin q)⟩ (F.fin a) F.inf).1.deriv =
        dequeAppend (capacity c) w F.inf) := by
  refine ⟨?_, ?_, ?_⟩
  · intro c w p t y
    cases p with
    | none => rfl
    | some q0 =>
      obtain ⟨lt, ly⟩ := q0
      cases hb : fge (fabs (fsub y ly)) (F.fin c.EPS) with
      | false => simp [stepF, hb]
      | true => simp [stepF, hb]
  · intro c w lt ly t
    simp [stepF, fsub, fabs, fge]
  · intro c w b q a
    simp only [stepF, fsub, fabs, fge]
    by_cases hab : (1 / 1000000 : ℚ) < a - b
    · have hdt : pymaxF (F.fin (1 / 1000000)) (F.fin (a - b)) = F.fin (a - b) := by
        simp only [pymaxF, fgt, decide_eq_true_eq]
        rw [if_pos hab]
      rw [hdt]
      have hpos : ¬(a - b < 0) := by
        intro hcon
        have : (0 : ℚ) < 1 / 1000000 := by norm_num
        linarith
      simp [fdiv, hpos]
    · have hdt : pymaxF (F.fin (1 / 1000000)) (F.fin (a - b)) = F.fin (1 / 1000000) := by
        simp only [pymaxF, fgt, decide_eq_true_eq]
        rw [if_neg hab]
      rw [hdt]
      norm_num [fdiv]

/-- Witness for C2 on the default configuration and a concrete two-sample run. -/
theorem C2_window_bound_witness :
    (run defaultConfig DetectorState.init [(0, 0), (1, 10)]).1.deriv.length ≤
      capacity defaultConfig ∧
    (run defaultConfig DetectorState.init [(0, 0), (1, 10)]).1.deriv.length ≤
      defaultConfig.DERIV_WINDOW :=
  ⟨(C2_window_bound defaultConfig [(0, 0), (1, 10)]).1,
   (C2_window_bound defaultConfig [(0, 0), (1, 10)]).2 (by decide)⟩
